import Mathlib

/-!
Shallow embedding of the `covenants` repository core: the split engine
(`packages/covenant-utils/src/split.rs`), the two-party POL holder
(`contracts/two-party-pol-holder/src/contract.rs`) and the astroport
liquid pooler (`contracts/astroport-liquid-pooler/src/contract.rs`).

Machine integers (`Uint128`) are modelled as `Nat` with explicit bounds
checks (`< 2 ^ 128`) exactly where the Rust code performs checked
arithmetic.  `Decimal` values (18-digit fixed point) are modelled by
their atomic numerator over `10 ^ 18`.  Fallible code returns `Except`;
an `Except.error` result models an aborted (fully reverted) transaction,
so an erroring call emits no messages and persists no state by
construction.
-/

namespace Covenants

/-- `Decimal::DECIMAL_FRACTIONAL = 10^18`: the fixed denominator of
cosmwasm 18-digit fixed-point decimals. -/
def decimalFractional : Nat := 1000000000000000000

/-- One more than `Uint128::MAX`; a value `v` fits in `Uint128` iff `v < u128Limit`. -/
def u128Limit : Nat := 340282366920938463463374607431768211456

/-- `cosmwasm_std::Coin`: a denom together with a `Uint128` amount. -/
structure Coin where
  denom : String
  amount : Nat
deriving Repr, DecidableEq

/-- `cosmwasm_std::BankMsg::Send`. -/
structure BankSend where
  toAddress : String
  amount : List Coin
deriving Repr, DecidableEq

/-- Errors surfaced by the split engine (`StdError` variants used in
`split.rs`, tagged without their message strings). -/
inductive SplitErr where
  /-- `StdError::not_found` on a missing receiver key. -/
  | notFound
  /-- shares must add up to 1.0 -/
  | badShares
  /-- failed to checked_multiply -/
  | checkedMultiply
deriving Repr, DecidableEq

/-- `Uint128::checked_multiply_ratio(num, den)`: `floor(amount * num / den)`
computed without intermediate overflow (the Rust code uses a 256-bit
intermediate), failing when the denominator is zero or the result does not
fit `Uint128`. -/
def checkedMultiplyU128 (amount num den : Nat) : Except SplitErr Nat :=
  if den = 0 then .error .checkedMultiply
  else if u128Limit ≤ amount * num / den then .error .checkedMultiply
  else .ok (amount * num / den)

/-- `Iterator::collect::<Result<Vec<_>, _>>`: map a fallible function over a
list, short-circuiting at the first error. -/
def collectExcept {α β ε : Type} (f : α → Except ε β) : List α → Except ε (List β)
  | [] => .ok []
  | a :: as => do
    let b ← f a
    let bs ← collectExcept f as
    pure (b :: bs)

/-- `covenant_utils::split::SplitConfig`: map from receiver address to its
`Decimal` share, modelled as an association list of atomic shares
(the Rust `BTreeMap` has unique keys). -/
structure SplitConfig where
  receivers : List (String × Nat)
deriving Repr, DecidableEq

namespace SplitConfig

/-- `SplitConfig::validate(party_a, party_b)`: both router addresses are
keys and their two shares sum to exactly one. -/
def validate (s : SplitConfig) (partyA partyB : String) : Except SplitErr Unit :=
  match s.receivers.lookup partyA with
  | none => .error .notFound
  | some shareA =>
    match s.receivers.lookup partyB with
    | none => .error .notFound
    | some shareB =>
      if shareA + shareB = decimalFractional then .ok () else .error .badShares

/-- `SplitConfig::validate_shares`: the sum of all receiver shares is one. -/
def validateShares (s : SplitConfig) : Except SplitErr Unit :=
  if (s.receivers.map Prod.snd).sum = decimalFractional then .ok ()
  else .error .badShares

/-- The effective share of one receiver entry under an optional filter
address: with a filter, the filtered receiver gets share one and every
other receiver share zero; without, the stored share. -/
def effectiveShare (filterAddr : Option String) (p : String × Nat) : String × Nat :=
  match filterAddr with
  | some f => if f = p.1 then (p.1, decimalFractional) else (p.1, 0)
  | none => p

/-- `SplitConfig::get_transfer_messages(amount, denom, filter_addr)`:
map each receiver to its effective share, drop zero shares, and emit one
`BankMsg::Send` of `floor(amount * share)` per remaining receiver,
short-circuiting on checked-multiply failure exactly as the Rust
`collect::<Result<_, _>>` does. -/
def getTransferMessages (s : SplitConfig) (amount : Nat) (denom : String)
    (filterAddr : Option String) : Except SplitErr (List BankSend) :=
  collectExcept
    (fun p => do
      let entitlement ← checkedMultiplyU128 amount p.2 decimalFractional
      pure { toAddress := p.1, amount := [{ denom := denom, amount := entitlement }] })
    ((s.receivers.map (effectiveShare filterAddr)).filter (fun p => p.2 ≠ 0))

end SplitConfig

/-- Total number of tokens carried by a list of bank sends. -/
def totalSent (msgs : List BankSend) : Nat :=
  (msgs.map (fun m => (m.amount.map Coin.amount).sum)).sum

/-- The bank sends `get_transfer_messages` emits on the unfiltered path:
one send of `floor(amount * share)` per receiver with non-zero share. -/
def expectedTransferMessages (s : SplitConfig) (amount : Nat) (denom : String) :
    List BankSend :=
  (s.receivers.filter (fun p => p.2 ≠ 0)).map
    (fun p => { toAddress := p.1,
                amount := [{ denom := denom, amount := amount * p.2 / decimalFractional }] })

/-! ## Two-party POL holder (`contracts/two-party-pol-holder/src/contract.rs`)

The holder's `msg.rs` and `state.rs` are not part of the sources; the
types and helper methods they declare (`ContractState`, `WithdrawState`,
`authorize_sender`, `update_parties`, `validate_claim_state`,
`complete_and_dequeue`, the `DenomSplits` distribution helpers and the
config validators) are modelled from the spec, as marked on each
definition.  Everything in `contract.rs` itself is embedded from the
source.  Addresses are plain strings; `addr_validate` (which only checks
bech32 well-formedness) is modelled as always succeeding.  Storage is a
record, balance queries are inputs, and an entry point maps the incoming
message to `Except ContractError (HolderStorage × List HolderMsg)`;
an error result models the fully-reverted transaction. -/

/-- `cw_utils::Expiration`. -/
inductive Expiration where
  | atHeight (h : Nat)
  | atTime (t : Nat)
  | never
deriving Repr, DecidableEq

/-- `cosmwasm_std::BlockInfo`, reduced to the fields the holder reads. -/
structure BlockInfo where
  height : Nat
  time : Nat
deriving Repr, DecidableEq

/-- `Expiration::is_expired(block)`: `block.height >= height`
resp. `block.time >= time`; `Never` never expires. -/
def Expiration.isExpired : Expiration → BlockInfo → Bool
  | .atHeight h, b => h ≤ b.height
  | .atTime t, b => t ≤ b.time
  | .never, _ => false

/-- Variant rank used by the derived `PartialOrd` on `Expiration`. -/
def Expiration.variantRank : Expiration → Nat
  | .atHeight _ => 0
  | .atTime _ => 1
  | .never => 2

/-- The derived `PartialOrd` on `Expiration` compares variant order first and
payloads within a variant; it is total, so `partial_cmp` never returns
`None` and `instantiate`'s `ExpirationValidationError` branch is dead. -/
def Expiration.derivedLt (x y : Expiration) : Bool :=
  match x, y with
  | .atHeight a, .atHeight b => a < b
  | .atTime a, .atTime b => a < b
  | _, _ => x.variantRank < y.variantRank

/-- `ContractState` of the two-party holder
(modelled from the spec: `Instantiated`, `Active`, `Expired`, `Ragequit`,
`Complete`). -/
inductive ContractState where
  | instantiated
  | active
  | expired
  | ragequit
  | complete
deriving Repr, DecidableEq

/-- `TwoPartyPolCovenantParty`, reduced to the fields `contract.rs` reads:
the authenticated host address, the payout router, the allocation
(`Decimal` atomics) and the contribution coin. -/
structure TwoPartyPolCovenantParty where
  hostAddr : String
  router : String
  allocation : Nat
  contribution : Coin
deriving Repr, DecidableEq

/-- `CovenantType`: `Share` or `Side`. -/
inductive CovenantType where
  | share
  | side
deriving Repr, DecidableEq

/-- `TwoPartyPolCovenantConfig`. -/
structure TwoPartyPolCovenantConfig where
  partyA : TwoPartyPolCovenantParty
  partyB : TwoPartyPolCovenantParty
  covenantType : CovenantType
deriving Repr, DecidableEq

/-- `RagequitState`: coins and party recorded when a ragequit resolves. -/
structure RagequitState where
  coins : List Coin
  rqParty : TwoPartyPolCovenantParty
deriving Repr, DecidableEq

/-- `RagequitTerms`: penalty (`Decimal` atomics) plus optional resolved state. -/
structure RagequitTerms where
  penalty : Nat
  state : Option RagequitState
deriving Repr, DecidableEq

/-- `RagequitConfig`. -/
inductive RagequitConfig where
  | disabled
  | enabled (terms : RagequitTerms)
deriving Repr, DecidableEq

/-- `WithdrawState` (modelled from the spec: transient, present only while
a pool withdrawal is in flight). -/
inductive WithdrawState where
  | processing (claimerAddr : String)
  | processingRagequit (claimerAddr : String) (terms : RagequitTerms)
  | emergency
deriving Repr, DecidableEq

/-- `DenomSplits`: explicit per-denom split configs plus optional fallback. -/
structure DenomSplits where
  explicitSplits : List (String × SplitConfig)
  fallbackSplit : Option SplitConfig
deriving Repr, DecidableEq

/-- `ContractError` variants of the holder (message payloads dropped). -/
inductive ContractError where
  | unauthorized
  | withdrawAlreadyStarted
  | withdrawStateNotStarted
  | ragequitDisabled
  | notActive
  | expired
  | insufficientDeposits
  | unauthorizedDenomDistribution
  | depositDeadlineValidationError
  | lockupValidationError
  | expirationValidationError
  | allocationValidationError
  | ragequitPenaltyValidationError
  | claimStateInvalid
  | split (e : SplitErr)
  | notClock
  | missingEmergencyCommittee
deriving Repr, DecidableEq

/-- The messages the holder emits, at the granularity the claims need. -/
inductive HolderMsg where
  | bankSend (toAddress : String) (amount : List Coin)
  | withdrawRequest (lper : String) (percentage : Option Nat)
  | dequeue (clock : String)
  | enqueue (clock : String)
deriving Repr, DecidableEq

/-- The holder's persisted storage
(`state.rs` items used by `contract.rs`); `withdrawState = none` models an
empty `WITHDRAW_STATE` slot and `emergencyCommittee = none` an unset
`EMERGENCY_COMMITTEE_ADDR`. -/
structure HolderStorage where
  contractState : ContractState
  withdrawState : Option WithdrawState
  covenantConfig : TwoPartyPolCovenantConfig
  denomSplits : DenomSplits
  ragequitConfig : RagequitConfig
  lockupConfig : Expiration
  depositDeadline : Expiration
  clockAddress : String
  liquidPoolerAddress : String
  emergencyCommittee : Option String
deriving Repr, DecidableEq

/-- Modelled from the spec: `Claim` is "authenticated against one of the
two parties"; `authorize_sender` returns the matching party first and the
counterparty second, failing with `Unauthorized` otherwise. -/
def TwoPartyPolCovenantConfig.authorizeSender (cfg : TwoPartyPolCovenantConfig)
    (sender : String) :
    Except ContractError (TwoPartyPolCovenantParty × TwoPartyPolCovenantParty) :=
  if sender = cfg.partyA.hostAddr then .ok (cfg.partyA, cfg.partyB)
  else if sender = cfg.partyB.hostAddr then .ok (cfg.partyB, cfg.partyA)
  else .error .unauthorized

/-- Modelled from the spec: `update_parties` writes an updated claim party
and counterparty back into the config, keeping each in its original slot
(parties are identified by their host address). -/
def TwoPartyPolCovenantConfig.updateParties (cfg : TwoPartyPolCovenantConfig)
    (p1 p2 : TwoPartyPolCovenantParty) : TwoPartyPolCovenantConfig :=
  if p1.hostAddr = cfg.partyA.hostAddr then { cfg with partyA := p1, partyB := p2 }
  else { cfg with partyA := p2, partyB := p1 }

/-- Modelled from the spec: a claim is only allowed once the holder reached
`Expired` or `Ragequit` ("we exit early if contract is not in ragequit or
expired state"). -/
def ContractState.validateClaimState (s : ContractState) : Except ContractError Unit :=
  match s with
  | .expired | .ragequit => .ok ()
  | _ => .error .claimStateInvalid

/-- Modelled from the spec: party allocations must add up to one
(`AllocationsDoNotSumToOne`, rejected at instantiation). -/
def TwoPartyPolCovenantConfig.validate (cfg : TwoPartyPolCovenantConfig) :
    Except ContractError Unit :=
  if cfg.partyA.allocation + cfg.partyB.allocation = decimalFractional then .ok ()
  else .error .allocationValidationError

/-- Modelled from the spec: an enabled ragequit penalty is a rational in
`[0, 1)` smaller than both party allocations
(`RagequitPenaltyOutOfRange`, rejected at instantiation). -/
def RagequitConfig.validate (rc : RagequitConfig) (aAlloc bAlloc : Nat) :
    Except ContractError Unit :=
  match rc with
  | .disabled => .ok ()
  | .enabled terms =>
    if decimalFractional ≤ terms.penalty then .error .ragequitPenaltyValidationError
    else if aAlloc < terms.penalty ∨ bAlloc < terms.penalty then
      .error .ragequitPenaltyValidationError
    else .ok ()

/-- The split config that applies to one denom: the explicit entry when
present, otherwise the fallback (the spec: "the fallback applies only to
denoms absent from `explicit`"). -/
def DenomSplits.splitFor (ds : DenomSplits) (denom : String) : Option SplitConfig :=
  match ds.explicitSplits.lookup denom with
  | some s => some s
  | none => ds.fallbackSplit

/-- Modelled from the spec:
`DenomSplits::get_single_receiver_distribution_messages(funds, receiver)`
pays the single receiver its received coins, routing each coin through the
split that applies to its denom with the receiver's effective share
treated as one; coins without an applicable split or with a failing
checked multiply contribute no message. -/
def DenomSplits.getSingleReceiverDistributionMessages (ds : DenomSplits)
    (funds : List Coin) (receiver : String) : List HolderMsg :=
  (funds.map (fun c =>
    match ds.splitFor c.denom with
    | some s =>
      match s.getTransferMessages c.amount c.denom (some receiver) with
      | .ok msgs => msgs.map (fun b => HolderMsg.bankSend b.toAddress b.amount)
      | .error _ => []
    | none => [])).flatten

/-- Modelled from the spec:
`DenomSplits::get_shared_distribution_messages(funds)` distributes every
coin according to the split that applies to its denom. -/
def DenomSplits.getSharedDistributionMessages (ds : DenomSplits)
    (funds : List Coin) : List HolderMsg :=
  (funds.map (fun c =>
    match ds.splitFor c.denom with
    | some s =>
      match s.getTransferMessages c.amount c.denom none with
      | .ok msgs => msgs.map (fun b => HolderMsg.bankSend b.toAddress b.amount)
      | .error _ => []
    | none => [])).flatten

/-- Modelled from the spec (ragequit penalty algebra):
`new_share(rq) = old_share(rq) − penalty`,
`new_share(cp) = old_share(cp) + penalty`, any third receiver unchanged. -/
def SplitConfig.applyPenaltyShares (s : SplitConfig) (penalty : Nat)
    (rqRouter cpRouter : String) : SplitConfig :=
  ⟨s.receivers.map (fun p =>
    if p.1 = rqRouter then (p.1, p.2 - penalty)
    else if p.1 = cpRouter then (p.1, p.2 + penalty)
    else p)⟩

/-- Modelled from the spec: `DenomSplits::apply_penalty` derives a new
`SplitConfig` per denom by the penalty algebra and applies
`validate_shares` on each result. -/
def DenomSplits.applyPenalty (ds : DenomSplits) (penalty : Nat)
    (rq cp : TwoPartyPolCovenantParty) : Except SplitErr DenomSplits := do
  let ex ← collectExcept (fun (p : String × SplitConfig) => do
      let s := p.2.applyPenaltyShares penalty rq.router cp.router
      let _ ← s.validateShares
      pure (p.1, s)) ds.explicitSplits
  match ds.fallbackSplit with
  | none => pure (⟨ex, none⟩ : DenomSplits)
  | some s => do
    let s := s.applyPenaltyShares penalty rq.router cp.router
    let _ ← s.validateShares
    pure (⟨ex, some s⟩ : DenomSplits)

/-- Modelled from the spec: `ContractState::complete_and_dequeue` stores
`Complete` and hands back the clock dequeue message. -/
def completeAndDequeue (st : HolderStorage) : HolderStorage × HolderMsg :=
  ({ st with contractState := .complete }, .dequeue st.clockAddress)

/-- Result type of a holder entry point: the stored state after the call
together with the emitted messages, in order. -/
abbrev HolderResult := Except ContractError (HolderStorage × List HolderMsg)

/-- `try_claim` (`contract.rs:166`): reject an in-flight withdrawal,
authorize the sender, complete early when both allocations are zero,
otherwise require `Expired`/`Ragequit`, record
`WithdrawState::Processing` and ask the pooler to withdraw. -/
def tryClaim (st : HolderStorage) (sender : String) : HolderResult := do
  if st.withdrawState.isSome then
    throw .withdrawAlreadyStarted
  let covenantConfig := st.covenantConfig
  let (claimParty, counterparty) ← covenantConfig.authorizeSender sender
  -- if both parties already claimed everything we complete early
  if claimParty.allocation = 0 ∧ counterparty.allocation = 0 then
    let (st, dequeueMessage) := completeAndDequeue st
    return (st, [dequeueMessage])
  -- we exit early if contract is not in ragequit or expired state
  st.contractState.validateClaimState
  -- set WithdrawState to include original data
  let st := { st with withdrawState := some (.processing claimParty.hostAddr) }
  -- If type is share we only withdraw the claim party allocation
  -- if type is side, we withdraw 100% of funds
  let withdrawPercentage := match covenantConfig.covenantType with
    | .share => some claimParty.allocation
    | .side => none
  return (st, [.withdrawRequest st.liquidPoolerAddress withdrawPercentage])

/-- `try_emergency_withdraw` (`contract.rs:210`). -/
def tryEmergencyWithdraw (st : HolderStorage) (sender : String) : HolderResult := do
  if st.withdrawState.isSome then
    throw .withdrawAlreadyStarted
  let committeeAddr ← match st.emergencyCommittee with
    | some a => pure a
    | none => throw .missingEmergencyCommittee
  if sender ≠ committeeAddr then
    throw .unauthorized
  let st := { st with withdrawState := some .emergency }
  return (st, [.withdrawRequest st.liquidPoolerAddress none])

/-- `try_claim_share_based` (`contract.rs:316`): pay the claim party's
router through the single-receiver messages, zero the claim party's
allocation, give the counterparty the full position if it still holds one,
otherwise complete and dequeue. -/
def tryClaimShareBased (st : HolderStorage)
    (claimParty counterparty : TwoPartyPolCovenantParty) (funds : List Coin)
    (covenantConfig : TwoPartyPolCovenantConfig) (denomSplits : DenomSplits) :
    HolderResult := do
  let messages := denomSplits.getSingleReceiverDistributionMessages funds claimParty.router
  let claimParty := { claimParty with allocation := 0 }
  if counterparty.allocation ≠ 0 then
    -- if other party had not claimed yet, we assign it the full position
    let counterparty := { counterparty with allocation := decimalFractional }
    let covenantConfig := covenantConfig.updateParties claimParty counterparty
    return ({ st with covenantConfig := covenantConfig }, messages)
  else
    -- otherwise both parties claimed everything and we can complete
    let (st, dequeueMessage) := completeAndDequeue st
    let covenantConfig := covenantConfig.updateParties claimParty counterparty
    return ({ st with covenantConfig := covenantConfig }, messages ++ [dequeueMessage])

/-- `try_claim_side_based` (`contract.rs:350`): distribute every coin by
the per-denom splits, zero both allocations, complete and dequeue. -/
def tryClaimSideBased (st : HolderStorage)
    (claimParty counterparty : TwoPartyPolCovenantParty) (funds : List Coin)
    (covenantConfig : TwoPartyPolCovenantConfig) (denomSplits : DenomSplits) :
    HolderResult := do
  let messages := denomSplits.getSharedDistributionMessages funds
  let claimParty := { claimParty with allocation := 0 }
  let counterparty := { counterparty with allocation := 0 }
  let covenantConfig := covenantConfig.updateParties claimParty counterparty
  let st := { st with covenantConfig := covenantConfig }
  let (st, dequeueMessage) := completeAndDequeue st
  return (st, messages ++ [dequeueMessage])

/-- `apply_rq_state_side` (`contract.rs:552`): record the resolved ragequit
state on an enabled ragequit config. -/
def applyRqStateSide (st : HolderStorage) (rqParty : TwoPartyPolCovenantParty)
    (coins : List Coin) : HolderStorage :=
  match st.ragequitConfig with
  | .enabled terms =>
    { st with ragequitConfig := .enabled { terms with state := some ⟨coins, rqParty⟩ } }
  | .disabled => st

/-- `apply_rq_state_share` (`contract.rs:565`): as the side variant, and
additionally store `ContractState::Ragequit`. -/
def applyRqStateShare (st : HolderStorage) (rqParty : TwoPartyPolCovenantParty)
    (coins : List Coin) : HolderStorage :=
  { applyRqStateSide st rqParty coins with contractState := .ragequit }

/-- `try_distribute` (`contract.rs:229`): pooler-only callback dispatching
on `WithdrawState`.  The `Emergency` arm returns out of the `match` before
the `WITHDRAW_STATE.remove` that follows it, so only the `Processing` and
`ProcessingRagequit` arms clear the withdraw state. -/
def tryDistribute (st : HolderStorage) (sender : String) (funds : List Coin) :
    HolderResult := do
  -- Only pooler can call this
  if sender ≠ st.liquidPoolerAddress then
    throw .unauthorized
  let withdrawState ← match st.withdrawState with
    | none => throw .withdrawStateNotStarted
    | some w => pure w
  let covenantConfig := st.covenantConfig
  let denomSplits := st.denomSplits
  let (claimParty, counterparty, denomSplits, isRq) ← match withdrawState with
    | .processing claimerAddr => do
      let (claimParty, counterparty) ← covenantConfig.authorizeSender claimerAddr
      pure (claimParty, counterparty, denomSplits, false)
    | .processingRagequit claimerAddr terms => do
      let (rqParty, counterparty) ← covenantConfig.authorizeSender claimerAddr
      let newDenomSplit ← (denomSplits.applyPenalty terms.penalty rqParty
        counterparty).mapError ContractError.split
      pure (rqParty, counterparty, newDenomSplit, true)
    | .emergency =>
      -- early return: the withdraw state below is NOT removed on this path
      return (← tryClaimSideBased st covenantConfig.partyA covenantConfig.partyB
        funds covenantConfig denomSplits)
  let st := { st with withdrawState := none }
  match covenantConfig.covenantType with
  | .share =>
    let st := if isRq then applyRqStateShare st claimParty funds else st
    tryClaimShareBased st claimParty counterparty funds covenantConfig denomSplits
  | .side =>
    let st := if isRq then applyRqStateSide st claimParty funds else st
    tryClaimSideBased st claimParty counterparty funds covenantConfig denomSplits

/-- `try_withdraw_failed` (`contract.rs:305`): pooler-only; clears the
withdraw state and nothing else. -/
def tryWithdrawFailed (st : HolderStorage) (sender : String) : HolderResult := do
  if sender ≠ st.liquidPoolerAddress then
    throw .unauthorized
  return ({ st with withdrawState := none }, [])

/-- `try_ragequit` (`contract.rs:501`). -/
def tryRagequit (st : HolderStorage) (block : BlockInfo) (sender : String) :
    HolderResult := do
  -- first we error out if ragequit is disabled
  let rqTerms ← match st.ragequitConfig with
    | .disabled => throw .ragequitDisabled
    | .enabled terms => pure terms
  -- ragequit is only possible when contract is in Active state
  if st.contractState ≠ .active then
    throw .notActive
  if st.withdrawState.isSome then
    throw .withdrawAlreadyStarted
  -- an expired lockup requires a tick to advance; ragequit is rejected
  if st.lockupConfig.isExpired block then
    throw .expired
  let covenantConfig := st.covenantConfig
  let (rqParty, _) ← covenantConfig.authorizeSender sender
  let withdrawPercentage := match covenantConfig.covenantType with
    | .share => some (rqParty.allocation - rqTerms.penalty)
    | .side => none
  let st := { st with
    withdrawState := some (.processingRagequit rqParty.hostAddr rqTerms) }
  return (st, [.withdrawRequest st.liquidPoolerAddress withdrawPercentage])

/-- `try_deposit` (`contract.rs:439`): `balA`/`balB` are the holder's
queried balances of the two contribution denoms. -/
def tryDeposit (st : HolderStorage) (block : BlockInfo) (balA balB : Nat) :
    HolderResult := do
  if st.depositDeadline.isExpired block then
    return ({ st with contractState := .complete }, [])
  let config := st.covenantConfig
  let partyAFulfilled := config.partyA.contribution.amount ≤ balA
  let partyBFulfilled := config.partyB.contribution.amount ≤ balB
  if ¬partyAFulfilled ∨ ¬partyBFulfilled then
    -- if deposit deadline is not yet due and both parties did not fulfill we error
    throw .insufficientDeposits
  let msg := HolderMsg.bankSend st.liquidPoolerAddress
    [⟨config.partyA.contribution.denom, balA⟩, ⟨config.partyB.contribution.denom, balB⟩]
  return ({ st with contractState := .active }, [msg])

/-- `try_refund` (`contract.rs:393`): send each non-zero contribution-denom
balance back to the matching party router. -/
def tryRefund (st : HolderStorage) (balA balB : Nat) : HolderResult := do
  let config := st.covenantConfig
  let refundMessages : List HolderMsg :=
    if balA = 0 then
      if balB = 0 then []
      else [.bankSend config.partyB.router [⟨config.partyB.contribution.denom, balB⟩]]
    else
      if balB = 0 then
        [.bankSend config.partyA.router [⟨config.partyA.contribution.denom, balA⟩]]
      else
        [.bankSend config.partyA.router [⟨config.partyA.contribution.denom, balA⟩],
         .bankSend config.partyB.router [⟨config.partyB.contribution.denom, balB⟩]]
  return (st, refundMessages)

/-- `check_expiration` (`contract.rs:484`). -/
def checkExpiration (st : HolderStorage) (block : BlockInfo) : HolderResult := do
  if ¬st.lockupConfig.isExpired block then
    return (st, [])
  -- advance state to Expired to enable claims
  return ({ st with contractState := .expired }, [])

/-- `try_tick` (`contract.rs:375`): clock-gated dispatch on the contract
state; `balA`/`balB` are the contribution-denom balances the branches
query. -/
def tryTick (st : HolderStorage) (block : BlockInfo) (sender : String)
    (balA balB : Nat) : HolderResult := do
  if sender ≠ st.clockAddress then
    throw .notClock
  match st.contractState with
  | .instantiated => tryDeposit st block balA balB
  | .active => checkExpiration st block
  | .expired | .ragequit => return (st, [])
  | .complete => tryRefund st balA balB

/-- `InstantiateMsg` of the two-party holder, reduced to the fields
`instantiate` reads. -/
structure InstantiateMsg where
  clockAddress : String
  nextContract : String
  lockupConfig : Expiration
  depositDeadline : Expiration
  ragequitConfig : RagequitConfig
  covenantConfig : TwoPartyPolCovenantConfig
  splits : List (String × SplitConfig)
  fallbackSplit : Option SplitConfig
  emergencyCommitteeAddr : Option String
deriving Repr, DecidableEq

/-- Whether an `Except` is `ok` (Rust `Result::ok()?` inside `filter_map`
keeps exactly the `Ok` entries). -/
def exceptIsOk {ε α : Type} : Except ε α → Bool
  | .ok _ => true
  | .error _ => false

/-- `instantiate` (`contract.rs:35`).  The deadline/lockup comparison uses
the derived total order on `Expiration`, so the `None =>
ExpirationValidationError` arm of the source is unreachable and the check
reduces to `Ordering::Less`.  The explicit splits are collected through
`filter_map(|..| split.validate(..).ok()?)`: an entry whose validation
fails is dropped, it does not abort instantiation.  The fallback split's
validation error, by contrast, is propagated. -/
def instantiate (msg : InstantiateMsg) (block : BlockInfo) :
    Except ContractError (HolderStorage × List HolderMsg) := do
  -- ensure that the deposit deadline is in the future
  if msg.depositDeadline.isExpired block then
    throw .depositDeadlineValidationError
  -- validate that lockup expiration is after the deposit deadline
  if ¬msg.depositDeadline.derivedLt msg.lockupConfig then
    throw .lockupValidationError
  msg.covenantConfig.validate
  msg.ragequitConfig.validate msg.covenantConfig.partyA.allocation
    msg.covenantConfig.partyB.allocation
  -- validate the splits and collect them into map
  let explicitSplits := msg.splits.filter (fun p =>
    exceptIsOk (p.2.validate msg.covenantConfig.partyA.router
      msg.covenantConfig.partyB.router))
  match msg.fallbackSplit with
  | some s =>
    (s.validate msg.covenantConfig.partyA.router
      msg.covenantConfig.partyB.router).mapError ContractError.split
  | none => pure ()
  return ({ contractState := .instantiated,
            withdrawState := none,
            covenantConfig := msg.covenantConfig,
            denomSplits := ⟨explicitSplits, msg.fallbackSplit⟩,
            ragequitConfig := msg.ragequitConfig,
            lockupConfig := msg.lockupConfig,
            depositDeadline := msg.depositDeadline,
            clockAddress := msg.clockAddress,
            liquidPoolerAddress := msg.nextContract,
            emergencyCommittee := msg.emergencyCommitteeAddr },
          [.enqueue msg.clockAddress])

/-! ### Concrete fixtures used by the holder theorems and witnesses -/

/-- Half, in `Decimal` atomics. -/
def halfShare : Nat := 500000000000000000

/-- A Share-mode two-party config: alice/bob with half allocation each. -/
def sampleConfig : TwoPartyPolCovenantConfig :=
  { partyA := { hostAddr := "alice", router := "routerA", allocation := halfShare,
                contribution := ⟨"uatom", 500⟩ },
    partyB := { hostAddr := "bob", router := "routerB", allocation := halfShare,
                contribution := ⟨"uosmo", 500⟩ },
    covenantType := .share }

/-- A denom-splits table with one explicit half/half split and no fallback. -/
def sampleSplits : DenomSplits :=
  ⟨[("uatom", ⟨[("routerA", halfShare), ("routerB", halfShare)]⟩)], none⟩

/-- A holder storage fixture in `Expired` state with no withdrawal in
flight. -/
def sampleStorage : HolderStorage :=
  { contractState := .expired,
    withdrawState := none,
    covenantConfig := sampleConfig,
    denomSplits := sampleSplits,
    ragequitConfig := .enabled ⟨100000000000000000, none⟩,
    lockupConfig := .atHeight 200,
    depositDeadline := .atHeight 100,
    clockAddress := "clock",
    liquidPoolerAddress := "pooler",
    emergencyCommittee := some "committee" }

/-- An instantiate message whose single explicit split omits party B's
router, so `SplitConfig::validate` fails on that entry. -/
def c2BadMsg : InstantiateMsg :=
  { clockAddress := "clock", nextContract := "pooler",
    lockupConfig := .atHeight 200, depositDeadline := .atHeight 100,
    ragequitConfig := .disabled,
    covenantConfig := sampleConfig,
    splits := [("uatom", ⟨[("routerA", decimalFractional)]⟩)],
    fallbackSplit := none,
    emergencyCommitteeAddr := none }

/-- Holder fixture awaiting the pooler's callback for a claim by alice. -/
def c1ProcessingStorage : HolderStorage :=
  { sampleStorage with withdrawState := some (.processing "alice") }

/-- Holder fixture awaiting the pooler's callback for an emergency
withdrawal. -/
def c1EmergencyStorage : HolderStorage :=
  { sampleStorage with withdrawState := some .emergency }

/-- The sample fixture in `Active` state (lockup at block 200, Share mode,
penalty 0.1). -/
def c4Storage : HolderStorage :=
  { sampleStorage with contractState := .active }

/-! ## Astroport liquid pooler
(`contracts/astroport-liquid-pooler/src/contract.rs`)

`msg.rs`/`state.rs` of this contract are likewise not under the sources;
`LpConfig`, `ProvidedLiquidityInfo` and the storage items are modelled
from the fields `contract.rs` reads, and `DecimalRange::is_within_range`
from the spec.  The AMM pool is an input (`PoolQuery`): the pair-type and
pool queries of a tick are its parameters.  `Decimal::from_ratio`'s
overflow/zero-division panic aborts the transaction just as a returned
error does, so both are modelled as `Except.error`; an error result
carries no message and no state change. -/

/-- `SingleSideLpLimits`. -/
structure SingleSideLpLimits where
  assetALimit : Nat
  assetBLimit : Nat
deriving Repr, DecidableEq

/-- `ProvidedLiquidityInfo`. -/
structure ProvidedLiquidityInfo where
  providedAmountA : Nat
  providedAmountB : Nat
deriving Repr, DecidableEq

/-- `LpConfig`, reduced to the fields `contract.rs` reads.  The expected
pool ratio range is a pair of `Decimal` atomics bounds and the pair type
an opaque tag compared for equality. -/
structure LpConfig where
  poolAddress : String
  singleSideLpLimits : SingleSideLpLimits
  expectedMinAtomics : Nat
  expectedMaxAtomics : Nat
  pairTypeTag : String
  assetADenom : String
  assetBDenom : String
deriving Repr, DecidableEq

/-- The pooler's persisted storage items used by a tick. -/
structure LpStorage where
  clockAddress : String
  holderAddress : Option String
  lpConfig : LpConfig
  info : ProvidedLiquidityInfo
deriving Repr, DecidableEq

/-- Pooler errors. -/
inductive LpErr where
  | notClock
  | pairTypeMismatch
  | priceRange
  | missingHolder
  | overflow
  | divideByZero
deriving Repr, DecidableEq

/-- The single message shape a pooler tick can emit:
`ProvideLiquidity { assets, .., receiver }` on the pool contract, funded
with `funds`. -/
inductive LpMsg where
  | provideLiquidity (pool : String) (assetAmountA assetAmountB : Nat)
      (receiver : String) (funds : List Coin)
deriving Repr, DecidableEq

/-- What a tick queries from the AMM pool: its pair type and reserves. -/
structure PoolQuery where
  pairTypeTag : String
  assets : List Coin
deriving Repr, DecidableEq

/-- `Decimal::from_ratio(a, b)`: atomics `floor(a * 10^18 / b)`; division
by zero or atomics exceeding `Uint128::MAX` panic in the source, aborting
the transaction, which the embedding reports as an error. -/
def decimalFromRatio (a b : Nat) : Except LpErr Nat :=
  if b = 0 then .error .divideByZero
  else if u128Limit ≤ a * decimalFractional / b then .error .overflow
  else .ok (a * decimalFractional / b)

/-- astroport `DecimalCheckedOps::checked_mul_uint128`:
`floor(amount * atomics / 10^18)` via a 256-bit intermediate, failing when
the result exceeds `Uint128::MAX`. -/
def checkedMulUint128 (atomics amount : Nat) : Except LpErr Nat :=
  if u128Limit ≤ amount * atomics / decimalFractional then .error .overflow
  else .ok (amount * atomics / decimalFractional)

/-- `Uint128::checked_add`. -/
def checkedAddU128 (a b : Nat) : Except LpErr Nat :=
  if u128Limit ≤ a + b then .error .overflow else .ok (a + b)

/-- Modelled from the spec: `DecimalRange::is_within_range(ratio)` requires
`min ≤ ratio ≤ max`, failing `PriceRangeError` otherwise. -/
def isWithinRange (minAtomics maxAtomics r : Nat) : Except LpErr Unit :=
  if minAtomics ≤ r ∧ r ≤ maxAtomics then .ok () else .error .priceRange

/-- `get_pool_asset_amounts` (`contract.rs:358`): scan the pool assets,
checking the b denom before the a denom. -/
def getPoolAssetAmounts (assets : List Coin) (aDenom bDenom : String) : Nat × Nat :=
  assets.foldl (fun acc c =>
    if c.denom = bDenom then (acc.1, c.amount)
    else if c.denom = aDenom then (c.amount, acc.2)
    else acc) (0, 0)

/-- `get_relevant_balances` (`contract.rs:342`): pick the configured
denoms out of the queried balances; missing denoms keep `Coin::default()`
(empty denom, zero amount). -/
def getRelevantBalances (coins : List Coin) (aDenom bDenom : String) : Coin × Coin :=
  coins.foldl (fun acc c =>
    if c.denom = aDenom then (c, acc.2)
    else if c.denom = bDenom then (acc.1, c)
    else acc) (⟨"", 0⟩, ⟨"", 0⟩)

/-- `try_get_double_side_lp_submsg` (`contract.rs:201`). -/
def tryGetDoubleSideLpSubmsg (st : LpStorage) (tokenA tokenB : Coin)
    (poolTokenRatioAtomics poolTokenABal poolTokenBBal : Nat) :
    Except LpErr (Option LpMsg × LpStorage) := do
  let holderAddress ← match st.holderAddress with
    | some a => pure a
    | none => throw .missingHolder
  -- the required token a amount to use all available b tokens
  let requiredTokenAAmount ← checkedMulUint128 poolTokenRatioAtomics tokenB.amount
  let (assetADoubleSided, assetBDoubleSided) ←
    if requiredTokenAAmount ≤ tokenA.amount then
      pure (requiredTokenAAmount, tokenB.amount)
    else do
      -- provide all a tokens and the b amount matching the pool ratio
      let reversedAtomics ← decimalFromRatio poolTokenBBal poolTokenABal
      let bNeeded ← checkedMulUint128 reversedAtomics tokenA.amount
      pure (tokenA.amount, bNeeded)
  let newB ← checkedAddU128 st.info.providedAmountB assetBDoubleSided
  let newA ← checkedAddU128 st.info.providedAmountA assetADoubleSided
  let st := { st with info := ⟨newA, newB⟩ }
  return (some (.provideLiquidity st.lpConfig.poolAddress assetADoubleSided
      assetBDoubleSided holderAddress
      [⟨st.lpConfig.assetADenom, assetADoubleSided⟩,
       ⟨st.lpConfig.assetBDenom, assetBDoubleSided⟩]), st)

/-- `try_get_single_side_lp_submsg` (`contract.rs:273`). -/
def tryGetSingleSideLpSubmsg (st : LpStorage) (coinA coinB : Coin) :
    Except LpErr (Option LpMsg × LpStorage) := do
  let holderAddress ← match st.holderAddress with
    | some a => pure a
    | none => throw .missingHolder
  if coinA.amount = 0 ∧ coinB.amount ≤ st.lpConfig.singleSideLpLimits.assetBLimit then
    let newB ← checkedAddU128 st.info.providedAmountB coinB.amount
    let st := { st with info := { st.info with providedAmountB := newB } }
    return (some (.provideLiquidity st.lpConfig.poolAddress coinA.amount
        coinB.amount holderAddress [coinB]), st)
  else if coinB.amount = 0 ∧ coinA.amount ≤ st.lpConfig.singleSideLpLimits.assetALimit then
    let newA ← checkedAddU128 st.info.providedAmountA coinA.amount
    let st := { st with info := { st.info with providedAmountA := newA } }
    return (some (.provideLiquidity st.lpConfig.poolAddress coinA.amount
        coinB.amount holderAddress [coinA]), st)
  else
    -- neither single side message could be built: go back and wait
    return (none, st)

/-- `try_lp` (`contract.rs:123`): validate the pair type, read the pool
reserves, compute and range-check the `A/B` ratio, read the relevant
balances and dispatch on which of them are zero; a `None` submessage falls
through to the plain "not enough funds" response. -/
def tryLp (st : LpStorage) (pool : PoolQuery) (balances : List Coin) :
    Except LpErr (List LpMsg × LpStorage) := do
  -- validate that the pool did not migrate to a new pair type
  if pool.pairTypeTag ≠ st.lpConfig.pairTypeTag then
    throw .pairTypeMismatch
  let (poolTokenABal, poolTokenBBal) := getPoolAssetAmounts pool.assets
    st.lpConfig.assetADenom st.lpConfig.assetBDenom
  let aToBRatioAtomics ← decimalFromRatio poolTokenABal poolTokenBBal
  -- validate the current pool ratio against our expectations
  let _ ← isWithinRange st.lpConfig.expectedMinAtomics st.lpConfig.expectedMaxAtomics
    aToBRatioAtomics
  let (coinA, coinB) := getRelevantBalances balances st.lpConfig.assetADenom
    st.lpConfig.assetBDenom
  let (optMsg, st) ←
    match (decide (coinA.amount = 0), decide (coinB.amount = 0)) with
    | (true, false) | (false, true) => tryGetSingleSideLpSubmsg st coinA coinB
    | (false, false) =>
      tryGetDoubleSideLpSubmsg st coinA coinB aToBRatioAtomics poolTokenABal poolTokenBBal
    | (true, true) => pure (none, st)
  match optMsg with
  | some msg => return ([msg], st)
  | none => return ([], st)

/-- Zero-allocation variant of the sample fixture, still `Instantiated`. -/
def c9Storage : HolderStorage :=
  { sampleStorage with
    contractState := .instantiated,
    covenantConfig := { sampleConfig with
      partyA := { sampleConfig.partyA with allocation := 0 },
      partyB := { sampleConfig.partyB with allocation := 0 } } }

/-- A pooler config fixture: xyk pair on uatom/uosmo, single-side limits
of 100 each, expected ratio range `[0.5, 2.0]`. -/
def lpSampleConfig : LpConfig :=
  { poolAddress := "pool",
    singleSideLpLimits := ⟨100, 100⟩,
    expectedMinAtomics := 500000000000000000,
    expectedMaxAtomics := 2000000000000000000,
    pairTypeTag := "xyk",
    assetADenom := "uatom",
    assetBDenom := "uosmo" }

/-- A pooler storage fixture with nothing provided yet. -/
def lpSampleStorage : LpStorage :=
  { clockAddress := "clock", holderAddress := some "holder",
    lpConfig := lpSampleConfig, info := ⟨0, 0⟩ }

/-- A queried pool fixture: matching pair type, reserves 1000/1000. -/
def lpSamplePool : PoolQuery :=
  { pairTypeTag := "xyk", assets := [⟨"uatom", 1000⟩, ⟨"uosmo", 1000⟩] }

/-! ## Theorems -/

/-- `collectExcept` succeeds pointwise. -/
theorem collectExcept_ok_of_forall {α β ε : Type} (f : α → Except ε β) (g : α → β) :
    ∀ l : List α, (∀ a ∈ l, f a = .ok (g a)) → collectExcept f l = .ok (l.map g)
  | [], _ => rfl
  | x :: xs, h => by
    have hx : f x = .ok (g x) := h x (by simp)
    have hxs : collectExcept f xs = .ok (xs.map g) :=
      collectExcept_ok_of_forall f g xs (fun a ha => h a (by simp [ha]))
    simp only [collectExcept, hx, hxs, List.map_cons]
    rfl

section SplitLemmas

/-- Dropping zero-share receivers does not change the floored-entitlement sum. -/
theorem sum_filter_nonzero (l : List (String × Nat)) (a D : Nat) :
    ((l.filter (fun p => p.2 ≠ 0)).map (fun p => a * p.2 / D)).sum =
      (l.map (fun p => a * p.2 / D)).sum := by
  induction l with
  | nil => rfl
  | cons x xs ih =>
    by_cases hx : x.2 = 0
    · rw [List.filter_cons, if_neg (by simp [hx])]
      simp only [List.map_cons, List.sum_cons, hx, Nat.mul_zero, Nat.zero_div, Nat.zero_add]
      exact ih
    · rw [List.filter_cons, if_pos (by simp [hx])]
      simp only [List.map_cons, List.sum_cons, ih]

/-- Exact decomposition of a scaled sum into floored quotients and remainders. -/
theorem mul_sum_eq_div_add_mod (ns : List Nat) (a D : Nat) :
    a * ns.sum = D * (ns.map (fun n => a * n / D)).sum
      + (ns.map (fun n => a * n % D)).sum := by
  induction ns with
  | nil => simp
  | cons n ns ih =>
    have hdm : D * (a * n / D) + a * n % D = a * n := Nat.div_add_mod (a * n) D
    simp only [List.sum_cons, List.map_cons, Nat.mul_add]
    omega

/-- Each remainder is at most `D - 1`. -/
theorem sum_mod_le (ns : List Nat) (a D : Nat) (hD : 0 < D) :
    (ns.map (fun n => a * n % D)).sum ≤ ns.length * (D - 1) := by
  induction ns with
  | nil => simp
  | cons n ns ih =>
    have h1 : a * n % D ≤ D - 1 := Nat.le_sub_one_of_lt (Nat.mod_lt _ hD)
    simp only [List.map_cons, List.sum_cons, List.length_cons]
    calc a * n % D + (ns.map (fun n => a * n % D)).sum
        ≤ (D - 1) + ns.length * (D - 1) := Nat.add_le_add h1 ih
      _ = (ns.length + 1) * (D - 1) := by ring

end SplitLemmas

/-- **C6.** For every `SplitConfig` whose receiver shares sum to exactly one
and every in-range amount, `get_transfer_messages(amount, denom, None)`
emits exactly one `BankMsg::Send` of `floor(amount * share)` per receiver
with non-zero share, and the total emitted equals `amount - rounding_loss`
with `0 ≤ rounding_loss < |receivers|`
(stated as `total ≤ amount ∧ amount < total + |receivers|`). -/
theorem C6_transfer_messages_conserve (s : SplitConfig) (amount : Nat) (denom : String)
    (hsum : (s.receivers.map Prod.snd).sum = decimalFractional)
    (hamt : amount < u128Limit) :
    s.getTransferMessages amount denom none = .ok (expectedTransferMessages s amount denom) ∧
    totalSent (expectedTransferMessages s amount denom) ≤ amount ∧
    amount < totalSent (expectedTransferMessages s amount denom) + s.receivers.length := by
  have hD : 0 < decimalFractional := by norm_num [decimalFractional]
  -- each receiver's entitlement is computed without overflow
  have hok : ∀ p ∈ s.receivers.filter (fun p => p.2 ≠ 0),
      checkedMultiplyU128 amount p.2 decimalFractional =
        .ok (amount * p.2 / decimalFractional) := by
    intro p hp
    have hmem : p ∈ s.receivers := List.mem_of_mem_filter hp
    have hshare : p.2 ≤ decimalFractional := by
      calc p.2 ≤ (s.receivers.map Prod.snd).sum :=
            List.single_le_sum (fun _ _ => Nat.zero_le _) _ (List.mem_map_of_mem Prod.snd hmem)
        _ = decimalFractional := hsum
    have hent : amount * p.2 / decimalFractional < u128Limit := by
      calc amount * p.2 / decimalFractional
          ≤ amount * decimalFractional / decimalFractional :=
            Nat.div_le_div_right (Nat.mul_le_mul_left _ hshare)
        _ = amount := Nat.mul_div_cancel _ hD
        _ < u128Limit := hamt
    unfold checkedMultiplyU128
    rw [if_neg hD.ne', if_neg (Nat.not_le.mpr hent)]
  -- the unfiltered path leaves receivers untouched
  have hmap : s.receivers.map (SplitConfig.effectiveShare none) = s.receivers := by
    have h0 : SplitConfig.effectiveShare none = fun p : String × Nat => p := by
      funext p
      rfl
    rw [h0]
    simp
  have hmsgs : s.getTransferMessages amount denom none =
      .ok (expectedTransferMessages s amount denom) := by
    unfold SplitConfig.getTransferMessages expectedTransferMessages
    rw [hmap]
    exact collectExcept_ok_of_forall _ _ _ (fun p hp => by
      simp only [bind, Except.bind, hok p hp]
      rfl)
  have htot : totalSent (expectedTransferMessages s amount denom) =
      ((s.receivers.map Prod.snd).map (fun n => amount * n / decimalFractional)).sum := by
    unfold totalSent expectedTransferMessages
    rw [List.map_map]
    have h1 : ((fun m : BankSend => (m.amount.map Coin.amount).sum) ∘
        fun p : String × Nat =>
          ({ toAddress := p.1,
             amount := [{ denom := denom,
                          amount := amount * p.2 / decimalFractional }] } : BankSend))
        = fun p : String × Nat => amount * p.2 / decimalFractional := by
      funext p
      simp
    rw [h1, sum_filter_nonzero, List.map_map]
    rfl
  -- amount * D = D * Σ floors + Σ mods, Σ mods ≤ len * (D - 1) < len * D
  have key : ∀ ns : List Nat, ns.sum = decimalFractional →
      (ns.map (fun n => amount * n / decimalFractional)).sum ≤ amount ∧
      amount < (ns.map (fun n => amount * n / decimalFractional)).sum + ns.length := by
    intro ns hsum'
    have hdecomp := mul_sum_eq_div_add_mod ns amount decimalFractional
    rw [hsum'] at hdecomp
    have hmod := sum_mod_le ns amount decimalFractional hD
    have hnonnil : 1 ≤ ns.length := by
      cases ns with
      | nil => exact absurd hsum' (by simp [decimalFractional])
      | cons n ns' => simp
    simp only [decimalFractional] at hdecomp hmod ⊢
    constructor <;> omega
  have hkey := key (s.receivers.map Prod.snd) hsum
  rw [List.length_map] at hkey
  exact ⟨hmsgs, by rw [htot]; exact hkey.1, by rw [htot]; exact hkey.2⟩

/-- **C10.** With a filter address that is not a key of the receiver map,
`get_transfer_messages` returns `Ok` with an empty message list. -/
theorem C10_filter_miss_empty (s : SplitConfig) (amount : Nat) (denom : String)
    (f : String) (hf : ∀ p ∈ s.receivers, p.1 ≠ f) :
    s.getTransferMessages amount denom (some f) = .ok [] := by
  unfold SplitConfig.getTransferMessages
  have h1 : (s.receivers.map (SplitConfig.effectiveShare (some f))).filter
      (fun p => p.2 ≠ 0) = [] := by
    rw [List.filter_eq_nil_iff]
    intro p hp
    rw [List.mem_map] at hp
    obtain ⟨q, hq, rfl⟩ := hp
    have : ¬(f = q.1) := fun h => hf q hq h.symm
    simp [SplitConfig.effectiveShare, this]
  rw [h1]
  rfl

/-- Witness for C6: a two-receiver half/half split of 101 tokens. -/
theorem C6_transfer_messages_conserve_witness :
    ((((⟨[("ra", 500000000000000000), ("rb", 500000000000000000)]⟩ :
        SplitConfig).receivers.map Prod.snd).sum = decimalFractional) ∧
      (101 : Nat) < u128Limit) ∧
    ((⟨[("ra", 500000000000000000), ("rb", 500000000000000000)]⟩ :
        SplitConfig).getTransferMessages 101 "uatom" none =
      .ok (expectedTransferMessages
        ⟨[("ra", 500000000000000000), ("rb", 500000000000000000)]⟩ 101 "uatom") ∧
      totalSent (expectedTransferMessages
        ⟨[("ra", 500000000000000000), ("rb", 500000000000000000)]⟩ 101 "uatom") ≤ 101 ∧
      101 < totalSent (expectedTransferMessages
        ⟨[("ra", 500000000000000000), ("rb", 500000000000000000)]⟩ 101 "uatom") +
        (⟨[("ra", 500000000000000000), ("rb", 500000000000000000)]⟩ :
          SplitConfig).receivers.length) :=
  ⟨⟨by decide, by decide⟩,
    C6_transfer_messages_conserve _ 101 "uatom" (by decide) (by decide)⟩

/-- Witness for C10: a filter address absent from a one-receiver split. -/
theorem C10_filter_miss_empty_witness :
    (∀ p ∈ (⟨[("ra", 500000000000000000)]⟩ : SplitConfig).receivers, p.1 ≠ "missing") ∧
    (⟨[("ra", 500000000000000000)]⟩ : SplitConfig).getTransferMessages 77 "uatom"
      (some "missing") = .ok [] :=
  ⟨by decide, C10_filter_miss_empty _ 77 "uatom" "missing" (by decide)⟩

/-- **C2** (the code at the failing input): the explicit split for
`"uatom"` fails validation — party B's router is not among its keys — yet
`instantiate` succeeds and persists a `DenomSplits` from which the entry
has been silently dropped, instead of rejecting the message with a split
validation error. -/
theorem C2_invalid_split_silently_dropped :
    (SplitConfig.validate ⟨[("routerA", decimalFractional)]⟩ "routerA" "routerB"
      = .error .notFound) ∧
    ∃ st, instantiate c2BadMsg ⟨10, 10⟩ = .ok (st, [.enqueue "clock"]) ∧
      st.denomSplits = ⟨[], none⟩ := by
  exact ⟨rfl, _, rfl, rfl⟩

/-- **C1** (the code at the failing input): the `Processing` branch of
`try_distribute` does clear the transient `WithdrawState`, but the
`Emergency` branch returns before `WITHDRAW_STATE.remove` runs, so after a
successful emergency `Distribute` the holder still stores
`WithdrawState::Emergency` while distribution messages were emitted. -/
theorem C1_emergency_branch_keeps_withdraw_state :
    (∃ r, tryDistribute c1ProcessingStorage "pooler" [⟨"uatom", 100⟩] = .ok r ∧
      r.1.withdrawState = none) ∧
    (∃ r, tryDistribute c1EmergencyStorage "pooler" [⟨"uatom", 100⟩] = .ok r ∧
      r.1.withdrawState = some .emergency ∧ r.2 ≠ []) := by
  exact ⟨⟨_, rfl, rfl⟩, ⟨_, rfl, rfl, by decide⟩⟩

/-- **C9.** With both allocations zero and no withdrawal in flight, a
`Claim` from an authenticated party completes the holder and dequeues it
from the clock, whatever the current contract state: the zero-allocation
short circuit runs before `validate_claim_state`. -/
theorem C9_zero_allocation_claim_short_circuits (st : HolderStorage) (sender : String)
    (cp other : TwoPartyPolCovenantParty)
    (hws : st.withdrawState = none)
    (hauth : st.covenantConfig.authorizeSender sender = .ok (cp, other))
    (hcp : cp.allocation = 0) (hother : other.allocation = 0) :
    tryClaim st sender =
      .ok ({ st with contractState := .complete }, [.dequeue st.clockAddress]) := by
  unfold tryClaim
  rw [hws]
  simp [hauth, hcp, hother, completeAndDequeue, bind, Except.bind, pure, Except.pure, hws]

/-- **C3.** Tick in `Instantiated`: once the deposit deadline has passed
the holder transitions to `Complete` (the scheduled refund is then issued
by the next tick, in `Complete`, which sends each non-zero
contribution-denom balance to the matching party router); before the
deadline, covered contributions forward both full balances to the liquid
pooler and activate the holder; otherwise the tick fails
`InsufficientDeposits`, leaving no state change (the error reverts the
transaction) so it can be retried. -/
theorem C3_deposit_tick (st : HolderStorage) (block blockNext : BlockInfo)
    (balA balB refundA refundB : Nat)
    (hstate : st.contractState = .instantiated) :
    (st.depositDeadline.isExpired block = true →
      tryTick st block st.clockAddress balA balB =
        .ok ({ st with contractState := .complete }, []) ∧
      tryTick { st with contractState := .complete } blockNext st.clockAddress
          refundA refundB =
        .ok ({ st with contractState := .complete },
          (if refundA = 0 then [] else
            [.bankSend st.covenantConfig.partyA.router
              [⟨st.covenantConfig.partyA.contribution.denom, refundA⟩]]) ++
          (if refundB = 0 then [] else
            [.bankSend st.covenantConfig.partyB.router
              [⟨st.covenantConfig.partyB.contribution.denom, refundB⟩]]))) ∧
    (st.depositDeadline.isExpired block = false →
      st.covenantConfig.partyA.contribution.amount ≤ balA →
      st.covenantConfig.partyB.contribution.amount ≤ balB →
      tryTick st block st.clockAddress balA balB =
        .ok ({ st with contractState := .active },
          [.bankSend st.liquidPoolerAddress
            [⟨st.covenantConfig.partyA.contribution.denom, balA⟩,
             ⟨st.covenantConfig.partyB.contribution.denom, balB⟩]])) ∧
    (st.depositDeadline.isExpired block = false →
      ¬(st.covenantConfig.partyA.contribution.amount ≤ balA ∧
        st.covenantConfig.partyB.contribution.amount ≤ balB) →
      tryTick st block st.clockAddress balA balB = .error .insufficientDeposits) := by
  refine ⟨fun hexp => ⟨?_, ?_⟩, fun hexp hA hB => ?_, fun hexp hAB => ?_⟩
  · unfold tryTick tryDeposit
    simp [hstate, hexp, bind, Except.bind, pure, Except.pure]
  · unfold tryTick tryRefund
    by_cases ha : refundA = 0 <;> by_cases hb : refundB = 0 <;>
      simp [ha, hb, bind, Except.bind, pure, Except.pure]
  · unfold tryTick tryDeposit
    simp [hstate, hexp, hA, hB, Nat.not_lt.mpr hA, Nat.not_lt.mpr hB,
      bind, Except.bind, pure, Except.pure]
  · unfold tryTick tryDeposit
    rcases Decidable.not_and_iff_or_not.mp hAB with h | h <;>
      simp [hstate, hexp, h, bind, Except.bind, pure, Except.pure]

/-- Witness for C3: the sample fixture in `Instantiated` state; deadline
block 100.  At block 120 the deadline has passed: the tick completes, and
the follow-up tick refunds 500 uatom / 0 uosmo to party A's router. -/
theorem C3_deposit_tick_witness :
    ({ sampleStorage with contractState := .instantiated } :
        HolderStorage).contractState = .instantiated ∧
    (Expiration.isExpired (HolderStorage.depositDeadline sampleStorage) ⟨120, 0⟩ = true) ∧
    tryTick { sampleStorage with contractState := .instantiated } ⟨120, 0⟩ "clock" 500 0 =
      .ok ({ sampleStorage with contractState := .complete }, []) ∧
    tryTick { sampleStorage with contractState := .complete } ⟨121, 0⟩ "clock" 500 0 =
      .ok ({ sampleStorage with contractState := .complete },
        [.bankSend "routerA" [⟨"uatom", 500⟩]]) := by
  have h := (C3_deposit_tick { sampleStorage with contractState := .instantiated }
    ⟨120, 0⟩ ⟨121, 0⟩ 500 0 500 0 rfl).1 rfl
  exact ⟨rfl, rfl, h.1, h.2⟩

/-- **C4.** `try_ragequit` checks its preconditions in order — ragequit
enabled, holder `Active`, no withdrawal in flight, lockup not yet expired
(`is_expired` holds *at* the lockup instant, so a ragequit at or after it
is rejected `Expired`) — and each violated precondition yields its error
with no state change (the error reverts the transaction).  On success it
records `WithdrawState::ProcessingRagequit{claimer, terms}` and requests
withdrawal of `allocation − penalty` in Share mode or of the whole
position (`None`) in Side mode. -/
theorem C4_ragequit_preconditions (st : HolderStorage) (block : BlockInfo)
    (sender : String) (terms : RagequitTerms)
    (rqParty other : TwoPartyPolCovenantParty) :
    (st.ragequitConfig = .disabled →
      tryRagequit st block sender = .error .ragequitDisabled) ∧
    (st.ragequitConfig = .enabled terms → st.contractState ≠ .active →
      tryRagequit st block sender = .error .notActive) ∧
    (st.ragequitConfig = .enabled terms → st.contractState = .active →
      st.withdrawState.isSome →
      tryRagequit st block sender = .error .withdrawAlreadyStarted) ∧
    (st.ragequitConfig = .enabled terms → st.contractState = .active →
      st.withdrawState = none → st.lockupConfig.isExpired block = true →
      tryRagequit st block sender = .error .expired) ∧
    (st.ragequitConfig = .enabled terms → st.contractState = .active →
      st.withdrawState = none → st.lockupConfig.isExpired block = false →
      st.covenantConfig.authorizeSender sender = .ok (rqParty, other) →
      terms.penalty ≤ rqParty.allocation →
      tryRagequit st block sender =
        .ok ({ st with withdrawState := some (.processingRagequit rqParty.hostAddr terms) },
          [.withdrawRequest st.liquidPoolerAddress
            (match st.covenantConfig.covenantType with
              | .share => some (rqParty.allocation - terms.penalty)
              | .side => none)])) := by
  refine ⟨fun hrq => ?_, fun hrq hstate => ?_, fun hrq hstate hws => ?_,
    fun hrq hstate hws hexp => ?_, fun hrq hstate hws hexp hauth hpen => ?_⟩
  · unfold tryRagequit
    simp [hrq, bind, Except.bind, pure, Except.pure]
  · unfold tryRagequit
    simp [hrq, hstate, bind, Except.bind, pure, Except.pure]
  · unfold tryRagequit
    simp [hrq, hstate, hws, bind, Except.bind, pure, Except.pure]
  · unfold tryRagequit
    rw [hws]
    simp [hrq, hstate, hexp, bind, Except.bind, pure, Except.pure]
  · unfold tryRagequit
    rw [hws]
    simp [hrq, hstate, hexp, hauth, bind, Except.bind, pure, Except.pure]

/-- Witness for C4: at block 150 alice's ragequit succeeds, requesting
`0.5 − 0.1 = 0.4` of the position; at block 200 — exactly the lockup
height — it is rejected `Expired`. -/
theorem C4_ragequit_preconditions_witness :
    c4Storage.ragequitConfig = .enabled ⟨100000000000000000, none⟩ ∧
    tryRagequit c4Storage ⟨150, 0⟩ "alice" =
      .ok ({ c4Storage with
               withdrawState := some (.processingRagequit "alice" ⟨100000000000000000, none⟩) },
        [.withdrawRequest "pooler" (some 400000000000000000)]) ∧
    tryRagequit c4Storage ⟨200, 0⟩ "alice" = .error .expired := by
  refine ⟨rfl, ?_, ?_⟩
  · exact (C4_ragequit_preconditions c4Storage ⟨150, 0⟩ "alice"
      ⟨100000000000000000, none⟩ c4Storage.covenantConfig.partyA
      c4Storage.covenantConfig.partyB).2.2.2.2 rfl rfl rfl rfl rfl (by decide)
  · exact (C4_ragequit_preconditions c4Storage ⟨200, 0⟩ "alice"
      ⟨100000000000000000, none⟩ c4Storage.covenantConfig.partyA
      c4Storage.covenantConfig.partyB).2.2.2.1 rfl rfl rfl rfl

/-- Whichever slot each party lands in, `update_parties` preserves the sum
of the two written allocations. -/
theorem updateParties_allocation_sum (cfg : TwoPartyPolCovenantConfig)
    (p1 p2 : TwoPartyPolCovenantParty) :
    (cfg.updateParties p1 p2).partyA.allocation +
      (cfg.updateParties p1 p2).partyB.allocation =
      p1.allocation + p2.allocation := by
  unfold TwoPartyPolCovenantConfig.updateParties
  split <;> simp [Nat.add_comm]

/-- **C5.** Share-mode `Distribute` with `WithdrawState::Processing`:
the received funds go to the claiming party's router through the
single-receiver distribution messages, the claimer's allocation becomes
zero and the counterparty's becomes one when it was non-zero; when the
counterparty's allocation was already zero the holder completes and
dequeues instead.  Every successful outcome keeps
`party_a.allocation + party_b.allocation ∈ {0, 1}`. -/
theorem C5_share_distribute (st : HolderStorage) (claimer : String)
    (funds : List Coin) (cp other : TwoPartyPolCovenantParty)
    (htype : st.covenantConfig.covenantType = .share)
    (hws : st.withdrawState = some (.processing claimer))
    (hauth : st.covenantConfig.authorizeSender claimer = .ok (cp, other)) :
    (other.allocation ≠ 0 →
      tryDistribute st st.liquidPoolerAddress funds =
        .ok ({ st with
                 withdrawState := none,
                 covenantConfig := st.covenantConfig.updateParties
                   { cp with allocation := 0 }
                   { other with allocation := decimalFractional } },
          st.denomSplits.getSingleReceiverDistributionMessages funds cp.router)) ∧
    (other.allocation = 0 →
      tryDistribute st st.liquidPoolerAddress funds =
        .ok ({ st with
                 withdrawState := none,
                 contractState := .complete,
                 covenantConfig := st.covenantConfig.updateParties
                   { cp with allocation := 0 } other },
          st.denomSplits.getSingleReceiverDistributionMessages funds cp.router
            ++ [.dequeue st.clockAddress])) ∧
    (∀ r, tryDistribute st st.liquidPoolerAddress funds = .ok r →
      r.1.covenantConfig.partyA.allocation + r.1.covenantConfig.partyB.allocation
        ∈ ({0, decimalFractional} : Set Nat)) := by
  have h1 : other.allocation ≠ 0 →
      tryDistribute st st.liquidPoolerAddress funds =
        .ok ({ st with
                 withdrawState := none,
                 covenantConfig := st.covenantConfig.updateParties
                   { cp with allocation := 0 }
                   { other with allocation := decimalFractional } },
          st.denomSplits.getSingleReceiverDistributionMessages funds cp.router) := by
    intro hother
    unfold tryDistribute tryClaimShareBased
    rw [hws]
    simp [hauth, htype, hother, completeAndDequeue, bind, Except.bind, pure, Except.pure]
  have h2 : other.allocation = 0 →
      tryDistribute st st.liquidPoolerAddress funds =
        .ok ({ st with
                 withdrawState := none,
                 contractState := .complete,
                 covenantConfig := st.covenantConfig.updateParties
                   { cp with allocation := 0 } other },
          st.denomSplits.getSingleReceiverDistributionMessages funds cp.router
            ++ [.dequeue st.clockAddress]) := by
    intro hother
    unfold tryDistribute tryClaimShareBased
    rw [hws]
    simp [hauth, htype, hother, completeAndDequeue, bind, Except.bind, pure, Except.pure]
  refine ⟨h1, h2, fun r hr => ?_⟩
  by_cases hother : other.allocation = 0
  · rw [h2 hother] at hr
    cases hr
    have := updateParties_allocation_sum st.covenantConfig
      { cp with allocation := 0 } other
    simp only [Set.mem_insert_iff, Set.mem_singleton_iff]
    left
    simpa [hother] using this
  · rw [h1 hother] at hr
    cases hr
    have := updateParties_allocation_sum st.covenantConfig
      { cp with allocation := 0 }
      { other with allocation := decimalFractional }
    simp only [Set.mem_insert_iff, Set.mem_singleton_iff]
    right
    simpa using this

/-- Witness for C5: the pooler distributes 100 uatom for alice's claim;
bob still holds a non-zero allocation, so it becomes one. -/
theorem C5_share_distribute_witness :
    c1ProcessingStorage.withdrawState = some (.processing "alice") ∧
    tryDistribute c1ProcessingStorage "pooler" [⟨"uatom", 100⟩] =
      .ok ({ c1ProcessingStorage with
               withdrawState := none,
               covenantConfig := c1ProcessingStorage.covenantConfig.updateParties
                 { c1ProcessingStorage.covenantConfig.partyA with allocation := 0 }
                 { c1ProcessingStorage.covenantConfig.partyB with
                     allocation := decimalFractional } },
        c1ProcessingStorage.denomSplits.getSingleReceiverDistributionMessages
          [⟨"uatom", 100⟩] c1ProcessingStorage.covenantConfig.partyA.router) :=
  ⟨rfl,
    (C5_share_distribute c1ProcessingStorage "alice" [⟨"uatom", 100⟩]
      c1ProcessingStorage.covenantConfig.partyA
      c1ProcessingStorage.covenantConfig.partyB rfl rfl rfl).1 (by decide)⟩

/-- Witness for C9: alice claims in `Instantiated` state with both
allocations zero. -/
theorem C9_zero_allocation_claim_short_circuits_witness :
    c9Storage.withdrawState = none ∧
    tryClaim c9Storage "alice" =
      .ok ({ c9Storage with contractState := .complete },
        [.dequeue c9Storage.clockAddress]) :=
  ⟨rfl, C9_zero_allocation_claim_short_circuits c9Storage "alice"
    c9Storage.covenantConfig.partyA c9Storage.covenantConfig.partyB rfl rfl rfl rfl⟩

/-- **C7.** Double-sided tick: with both configured balances non-zero and
the pool ratio within range, the pooler computes
`need_a = floor(ratio * cb)` from the queried ratio `A/B`; if
`ca ≥ need_a` it provides exactly `(need_a, cb)`, otherwise exactly
`(ca, floor((B/A) * ca))`, funding the single `ProvideLiquidity` message
with precisely those two coins and adding precisely those two amounts to
`ProvidedLiquidityInfo`.  Every ratio multiplication is checked: an
overflowing `need_a` fails the whole tick, and the error result carries no
message and no state update. -/
theorem C7_double_sided_lp (st : LpStorage) (pool : PoolQuery)
    (balances : List Coin) (h : String) (poolA poolB r needA : Nat) (cA cB : Coin)
    (hpair : pool.pairTypeTag = st.lpConfig.pairTypeTag)
    (hholder : st.holderAddress = some h)
    (hpool : getPoolAssetAmounts pool.assets st.lpConfig.assetADenom
      st.lpConfig.assetBDenom = (poolA, poolB))
    (hB : poolB ≠ 0) (hA : poolA ≠ 0)
    (hr : r = poolA * decimalFractional / poolB)
    (hrfit : r < u128Limit)
    (hrange : st.lpConfig.expectedMinAtomics ≤ r ∧ r ≤ st.lpConfig.expectedMaxAtomics)
    (hbal : getRelevantBalances balances st.lpConfig.assetADenom
      st.lpConfig.assetBDenom = (cA, cB))
    (hcA : cA.amount ≠ 0) (hcB : cB.amount ≠ 0)
    (hneed : needA = cB.amount * r / decimalFractional) :
    (needA < u128Limit → needA ≤ cA.amount →
      st.info.providedAmountB + cB.amount < u128Limit →
      st.info.providedAmountA + needA < u128Limit →
      tryLp st pool balances =
        .ok ([.provideLiquidity st.lpConfig.poolAddress needA cB.amount h
            [⟨st.lpConfig.assetADenom, needA⟩, ⟨st.lpConfig.assetBDenom, cB.amount⟩]],
          { st with info := ⟨st.info.providedAmountA + needA,
              st.info.providedAmountB + cB.amount⟩ })) ∧
    (needA < u128Limit → cA.amount < needA →
      ∀ rRev bNeeded : Nat,
        rRev = poolB * decimalFractional / poolA →
        bNeeded = cA.amount * rRev / decimalFractional →
        rRev < u128Limit → bNeeded < u128Limit →
        st.info.providedAmountB + bNeeded < u128Limit →
        st.info.providedAmountA + cA.amount < u128Limit →
        tryLp st pool balances =
          .ok ([.provideLiquidity st.lpConfig.poolAddress cA.amount bNeeded h
              [⟨st.lpConfig.assetADenom, cA.amount⟩, ⟨st.lpConfig.assetBDenom, bNeeded⟩]],
            { st with info := ⟨st.info.providedAmountA + cA.amount,
                st.info.providedAmountB + bNeeded⟩ })) ∧
    (u128Limit ≤ needA → tryLp st pool balances = .error .overflow) := by
  subst hr hneed
  refine ⟨fun hfit hle hfb hfa => ?_, fun hfit hlt rRev bNeeded hrev hbn hfr hfbn hfb hfa => ?_,
    fun hover => ?_⟩
  · unfold tryLp tryGetDoubleSideLpSubmsg decimalFromRatio checkedMulUint128 checkedAddU128
      isWithinRange
    rw [hpool, hbal, hholder]
    simp [hpair, hB, hrange.1, hrange.2, hcA, hcB, hle,
      Nat.not_le.mpr hrfit, Nat.not_le.mpr hfit, Nat.not_le.mpr hfb, Nat.not_le.mpr hfa,
      bind, Except.bind, pure, Except.pure]
  · subst hrev hbn
    unfold tryLp tryGetDoubleSideLpSubmsg decimalFromRatio checkedMulUint128 checkedAddU128
      isWithinRange
    rw [hpool, hbal, hholder]
    simp [hpair, hB, hA, hrange.1, hrange.2, hcA, hcB, Nat.not_le.mpr hlt,
      Nat.not_le.mpr hrfit, Nat.not_le.mpr hfit, Nat.not_le.mpr hfr, Nat.not_le.mpr hfbn,
      Nat.not_le.mpr hfb, Nat.not_le.mpr hfa,
      bind, Except.bind, pure, Except.pure]
  · unfold tryLp tryGetDoubleSideLpSubmsg decimalFromRatio checkedMulUint128
      isWithinRange
    rw [hpool, hbal, hholder]
    simp [hpair, hB, hrange.1, hrange.2, hcA, hcB, hover,
      Nat.not_le.mpr hrfit, bind, Except.bind, pure, Except.pure]

/-- **C8.** With exactly one non-zero configured balance, a tick emits a
single-sided `ProvideLiquidity` funded with exactly that balance iff the
balance is at most the corresponding `single_side_lp_limits` entry, in
that case adding the amount to the corresponding provided amount; above
the limit the tick succeeds with no message and unchanged
`ProvidedLiquidityInfo`, retrying next tick. -/
theorem C8_single_sided_limits (st : LpStorage) (pool : PoolQuery)
    (balances : List Coin) (h : String) (poolA poolB r : Nat) (cA cB : Coin)
    (hpair : pool.pairTypeTag = st.lpConfig.pairTypeTag)
    (hholder : st.holderAddress = some h)
    (hpool : getPoolAssetAmounts pool.assets st.lpConfig.assetADenom
      st.lpConfig.assetBDenom = (poolA, poolB))
    (hB : poolB ≠ 0)
    (hr : r = poolA * decimalFractional / poolB)
    (hrfit : r < u128Limit)
    (hrange : st.lpConfig.expectedMinAtomics ≤ r ∧ r ≤ st.lpConfig.expectedMaxAtomics)
    (hbal : getRelevantBalances balances st.lpConfig.assetADenom
      st.lpConfig.assetBDenom = (cA, cB)) :
    (cA.amount ≠ 0 → cB.amount = 0 →
      (cA.amount ≤ st.lpConfig.singleSideLpLimits.assetALimit →
        st.info.providedAmountA + cA.amount < u128Limit →
        tryLp st pool balances =
          .ok ([.provideLiquidity st.lpConfig.poolAddress cA.amount cB.amount h [cA]],
            { st with info := { st.info with
                providedAmountA := st.info.providedAmountA + cA.amount } })) ∧
      (st.lpConfig.singleSideLpLimits.assetALimit < cA.amount →
        tryLp st pool balances = .ok ([], st))) ∧
    (cA.amount = 0 → cB.amount ≠ 0 →
      (cB.amount ≤ st.lpConfig.singleSideLpLimits.assetBLimit →
        st.info.providedAmountB + cB.amount < u128Limit →
        tryLp st pool balances =
          .ok ([.provideLiquidity st.lpConfig.poolAddress cA.amount cB.amount h [cB]],
            { st with info := { st.info with
                providedAmountB := st.info.providedAmountB + cB.amount } })) ∧
      (st.lpConfig.singleSideLpLimits.assetBLimit < cB.amount →
        tryLp st pool balances = .ok ([], st))) := by
  subst hr
  refine ⟨fun hca hcb => ⟨fun hle hfa => ?_, fun hgt => ?_⟩,
    fun hca hcb => ⟨fun hle hfb => ?_, fun hgt => ?_⟩⟩
  · unfold tryLp tryGetSingleSideLpSubmsg decimalFromRatio checkedAddU128 isWithinRange
    rw [hpool, hbal, hholder]
    simp [hpair, hB, hrange.1, hrange.2, hca, hcb, hle,
      Nat.not_le.mpr hrfit, Nat.not_le.mpr hfa, bind, Except.bind, pure, Except.pure]
  · unfold tryLp tryGetSingleSideLpSubmsg decimalFromRatio checkedAddU128 isWithinRange
    rw [hpool, hbal, hholder]
    simp [hpair, hB, hrange.1, hrange.2, hca, hcb, Nat.not_le.mpr hgt,
      Nat.not_le.mpr hrfit, bind, Except.bind, pure, Except.pure]
  · unfold tryLp tryGetSingleSideLpSubmsg decimalFromRatio checkedAddU128 isWithinRange
    rw [hpool, hbal, hholder]
    simp [hpair, hB, hrange.1, hrange.2, hca, hcb, hle,
      Nat.not_le.mpr hrfit, Nat.not_le.mpr hfb, bind, Except.bind, pure, Except.pure]
  · unfold tryLp tryGetSingleSideLpSubmsg decimalFromRatio checkedAddU128 isWithinRange
    rw [hpool, hbal, hholder]
    simp [hpair, hB, hrange.1, hrange.2, hca, hcb, Nat.not_le.mpr hgt,
      Nat.not_le.mpr hrfit, bind, Except.bind, pure, Except.pure]

/-- Witness for C7: reserves 1000/1000 (ratio one), balances
`(a=80, b=50)`; `need_a = 50 ≤ 80`, so the tick provides `(50, 50)` and
records it. -/
theorem C7_double_sided_lp_witness :
    tryLp lpSampleStorage lpSamplePool [⟨"uatom", 80⟩, ⟨"uosmo", 50⟩] =
      .ok ([.provideLiquidity "pool" 50 50 "holder" [⟨"uatom", 50⟩, ⟨"uosmo", 50⟩]],
        { lpSampleStorage with info := ⟨50, 50⟩ }) :=
  (C7_double_sided_lp lpSampleStorage lpSamplePool [⟨"uatom", 80⟩, ⟨"uosmo", 50⟩]
    "holder" 1000 1000 decimalFractional 50 ⟨"uatom", 80⟩ ⟨"uosmo", 50⟩
    rfl rfl (by decide) (by decide) (by decide) (by decide) (by decide)
    ⟨by decide, by decide⟩ (by decide) (by decide) (by decide) (by decide)).1
    (by decide) (by decide) (by decide) (by decide)

/-- Witness for C8, the spec's S6 numbers: limit 100 on side a; a balance
of 80 is provided single-sided and recorded, a balance of 120 leaves the
tick message-free with unchanged info. -/
theorem C8_single_sided_limits_witness :
    (tryLp lpSampleStorage lpSamplePool [⟨"uatom", 80⟩] =
      .ok ([.provideLiquidity "pool" 80 0 "holder" [⟨"uatom", 80⟩]],
        { lpSampleStorage with info := ⟨80, 0⟩ })) ∧
    tryLp lpSampleStorage lpSamplePool [⟨"uatom", 120⟩] = .ok ([], lpSampleStorage) :=
  ⟨((C8_single_sided_limits lpSampleStorage lpSamplePool [⟨"uatom", 80⟩] "holder"
      1000 1000 decimalFractional ⟨"uatom", 80⟩ ⟨"", 0⟩
      rfl rfl (by decide) (by decide) (by decide) (by decide)
      ⟨by decide, by decide⟩ (by decide)).1 (by decide) rfl).1 (by decide) (by decide),
   ((C8_single_sided_limits lpSampleStorage lpSamplePool [⟨"uatom", 120⟩] "holder"
      1000 1000 decimalFractional ⟨"uatom", 120⟩ ⟨"", 0⟩
      rfl rfl (by decide) (by decide) (by decide) (by decide)
      ⟨by decide, by decide⟩ (by decide)).1 (by decide) rfl).2 (by decide)⟩

end Covenants
